import Mathlib

/-!
Verification of `zoom_emoji_sender.py` against its specification.

The Python source is shallowly embedded: pure helpers become Lean
functions, and the effectful API calls of the sender are modelled by an
oracle `Nat → String → Except String R` giving, for each request index
and emoji argument, either the parsed success response or the string form
of the raised `requests.exceptions.HTTPError` (the sender only ever
inspects `str(e)`).  Sleeps are recorded as a trace of exact rational
amounts; multiplying a binary float by a power of two is exact, so the
rational model agrees with the float arithmetic of the source on every
quantity the spec mentions.
-/

/-- Embedding of Python's substring test `needle in hay` restricted to the
prefix check: `listIsPrefixOf p l` is true when `p` is an initial segment
of `l`. -/
def listIsPrefixOf : List Char → List Char → Bool
  | [], _ => true
  | _ :: _, [] => false
  | p :: ps, c :: cs => p == c && listIsPrefixOf ps cs

/-- `listHasSub needle hay` is true when `needle` occurs contiguously in
`hay` (Python's `needle in hay` on strings). -/
def listHasSub (needle : List Char) : List Char → Bool
  | [] => listIsPrefixOf needle []
  | c :: cs => listIsPrefixOf needle (c :: cs) || listHasSub needle cs

/-- Python's `needle in hay` for strings, as used at lines 324 and 339 of
`zoom_emoji_sender.py` to classify error text. -/
def strContains (hay needle : String) : Bool :=
  listHasSub needle.data hay.data

/-- Uppercase hexadecimal digit, matching Python's `format(n, "X")` digit
alphabet. The final catch-all is unreachable at every call site (argument
is always below 16). -/
def hexDigit : Nat → Char
  | 0 => '0'
  | 1 => '1'
  | 2 => '2'
  | 3 => '3'
  | 4 => '4'
  | 5 => '5'
  | 6 => '6'
  | 7 => '7'
  | 8 => '8'
  | 9 => '9'
  | 10 => 'A'
  | 11 => 'B'
  | 12 => 'C'
  | 13 => 'D'
  | 14 => 'E'
  | 15 => 'F'
  | _ => '0'

/-- Fuel-indexed digit expansion: most significant digit first, as
produced by Python's `f-string` format specifier `X`.  `fuel` only
bounds the recursion; `fuel = n + 1` always suffices because the
argument is divided by 16 at each step. -/
def toHexAux : Nat → Nat → List Char
  | 0, _ => []
  | fuel + 1, n =>
    if n < 16 then [hexDigit n]
    else toHexAux fuel (n / 16) ++ [hexDigit (n % 16)]

/-- Embedding of Python's `f"\x7bord(char):X\x7d"`: uppercase hex of a
codepoint with no leading zeros. -/
def pyHexUpper (n : Nat) : String :=
  String.mk (toHexAux (n + 1) n)

/-- Embedding of Python's `str.join`: `pyJoin sep parts` is
`sep.join(parts)`. -/
def pyJoin (sep : String) : List String → String
  | [] => ""
  | [x] => x
  | x :: xs => x ++ sep ++ pyJoin sep xs

/-- `emoji_to_unicode` (lines 18-35 of `zoom_emoji_sender.py`):
per-codepoint uppercase hex prefixed with `U+`; a single codepoint is
returned bare, several are hyphen-joined. -/
def emoji_to_unicode (emoji : String) : String :=
  let codepoints := emoji.data.map (fun c => pyHexUpper c.toNat)
  if codepoints.length = 1 then
    "U+" ++ codepoints.headD ("")
  else
    pyJoin ("-") (codepoints.map (fun cp => "U+" ++ cp))

/-- The two-codepoint United States flag emoji, written by codepoint to
keep the file ASCII. -/
def flagUS : String :=
  String.mk [Char.ofNat 0x1F1FA, Char.ofNat 0x1F1F8]

/-- Value of an uppercase hex digit character; inverse of `hexDigit` on
the digit alphabet. -/
def hexDigitVal : Char → Nat
  | '0' => 0
  | '1' => 1
  | '2' => 2
  | '3' => 3
  | '4' => 4
  | '5' => 5
  | '6' => 6
  | '7' => 7
  | '8' => 8
  | '9' => 9
  | 'A' => 10
  | 'B' => 11
  | 'C' => 12
  | 'D' => 13
  | 'E' => 14
  | 'F' => 15
  | _ => 0

/-- Big-endian accumulation of hex digit values. -/
def hexDenoteAux (acc : Nat) : List Char → Nat
  | [] => acc
  | c :: cs => hexDenoteAux (16 * acc + hexDigitVal c) cs

/-- The numeric value denoted by an uppercase hex string. -/
def hexDenote (s : String) : Nat :=
  hexDenoteAux 0 s.data

/-- The uppercase hexadecimal digit alphabet. -/
def hexAlphabet : List Char :=
  ['0', '1', '2', '3', '4', '5', '6', '7', '8', '9', 'A', 'B', 'C', 'D', 'E', 'F']

/-- Error classes distinguished by the retry loop of `spam_emojis`
(lines 320-361 of `zoom_emoji_sender.py`). -/
inductive ErrClass where
  | rateLimited
  | transientServer
  | nonRetryable
deriving DecidableEq

/-- The classification performed by the `if "429" in str(e)` /
`elif "5301" in str(e)` / `else` chain of `spam_emojis`. -/
def classify (msg : String) : ErrClass :=
  if strContains msg ("429") then ErrClass.rateLimited
  else if strContains msg ("5301") then ErrClass.transientServer
  else ErrClass.nonRetryable

/-- Third field of a `SendOutcome`: the recorded `response` of a
successful send, or the recorded `error` string of a failed one. -/
inductive SendPayload (R : Type) where
  | response : R → SendPayload R
  | error : String → SendPayload R
deriving DecidableEq

/-- One element of the `results` list built by `spam_emojis`: the Python
dict with keys `emoji`, `success` and one of `response` / `error`. -/
structure SendOutcome (R : Type) where
  emoji : String
  success : Bool
  payload : SendPayload R
deriving DecidableEq

/-- The `while not success and retry_count <= max_retries` loop body of
`spam_emojis` for one symbol.  `oracle i e` is the outcome of the `i`-th
API request of the run, sent for emoji `e`: `Except.ok r` when
`add_emoji_reaction` returns normally and `Except.error msg` when it
raises an `HTTPError` whose `str` is `msg`.  Arguments after the colon:
remaining loop iterations (`max_retries + 1 - retry_count` at every
reachable call), current `retry_count`, next request index.  Returns the
outcomes appended for this symbol, the next request index, and the trace
of `time.sleep` amounts in chronological order. -/
def sendOneAux {R : Type} (oracle : Nat → String → Except String R)
    (e : String) (delay : Rat) (max_retries : Nat) :
    Nat → Nat → Nat → List (SendOutcome R) × Nat × List Rat
  | 0, _, idx => ([], idx, [])
  | fuel + 1, retry_count, idx =>
    match oracle idx e with
    | Except.ok r => ([⟨e, true, SendPayload.response r⟩], idx + 1, [delay])
    | Except.error msg =>
      if strContains msg ("429") then
        if retry_count + 1 ≤ max_retries then
          let rest := sendOneAux oracle e delay max_retries fuel (retry_count + 1) (idx + 1)
          (rest.1, rest.2.1, delay * 2 ^ (retry_count + 1) :: rest.2.2)
        else
          ([⟨e, false, SendPayload.error msg⟩], idx + 1, [])
      else if strContains msg ("5301") then
        if retry_count + 1 ≤ max_retries then
          let rest := sendOneAux oracle e delay max_retries fuel (retry_count + 1) (idx + 1)
          (rest.1, rest.2.1, delay * 2 :: rest.2.2)
        else
          ([⟨e, false, SendPayload.error msg⟩], idx + 1, [])
      else
        ([⟨e, false, SendPayload.error msg⟩], idx + 1, [delay])

/-- The `for emoji in emojis` loop of `spam_emojis`, threading the
request index through successive symbols. -/
def spamAux {R : Type} (oracle : Nat → String → Except String R)
    (delay : Rat) (max_retries : Nat) :
    List String → Nat → List (SendOutcome R) × Nat × List Rat
  | [], idx => ([], idx, [])
  | e :: rest, idx =>
    let one := sendOneAux oracle e delay max_retries (max_retries + 1) 0 idx
    let restRun := spamAux oracle delay max_retries rest one.2.1
    (one.1 ++ restRun.1, restRun.2.1, one.2.2 ++ restRun.2.2)

/-- `ZoomEmojiSender.spam_emojis` (lines 272-364): per-symbol bounded
retry loop over an ordered emoji list.  Returns the `results` list, the
total number of API requests issued, and the chronological sleep trace.
The source defaults are `delay = 1.0`, `max_retries = 3`. -/
def spam_emojis {R : Type} (oracle : Nat → String → Except String R)
    (emojis : List String) (delay : Rat) (max_retries : Nat) :
    List (SendOutcome R) × Nat × List Rat :=
  spamAux oracle delay max_retries emojis 0

theorem sendOneAux_emoji {R : Type} (oracle : Nat → String → Except String R)
    (e : String) (delay : Rat) (max_retries : Nat) :
    ∀ fuel retry_count idx, fuel + retry_count = max_retries + 1 → 1 ≤ fuel →
      ((sendOneAux oracle e delay max_retries fuel retry_count idx).1).map
          (fun o => o.emoji) = [e] := by
  intro fuel
  induction fuel with
  | zero => intro rc idx hinv hf; omega
  | succ f ih =>
    intro rc idx hinv _
    cases h : oracle idx e with
    | ok r => simp [sendOneAux, h]
    | error msg =>
      by_cases h429 : strContains msg ("429") = true
      · by_cases hrc : rc + 1 ≤ max_retries
        · have := ih (rc + 1) (idx + 1) (by omega) (by omega)
          simp [sendOneAux, h, h429, hrc, this]
        · simp [sendOneAux, h, h429, hrc]
      · by_cases h5301 : strContains msg ("5301") = true
        · by_cases hrc : rc + 1 ≤ max_retries
          · have := ih (rc + 1) (idx + 1) (by omega) (by omega)
            simp [sendOneAux, h, h429, h5301, hrc, this]
          · simp [sendOneAux, h, h429, h5301, hrc]
        · simp [sendOneAux, h, h429, h5301]

theorem sendOneAux_count_le {R : Type} (oracle : Nat → String → Except String R)
    (e : String) (delay : Rat) (max_retries : Nat) :
    ∀ fuel retry_count idx,
      (sendOneAux oracle e delay max_retries fuel retry_count idx).2.1 ≤ idx + fuel := by
  intro fuel
  induction fuel with
  | zero => intro rc idx; simp [sendOneAux]
  | succ f ih =>
    intro rc idx
    cases h : oracle idx e with
    | ok r => simp [sendOneAux, h]
    | error msg =>
      by_cases h429 : strContains msg ("429") = true
      · by_cases hrc : rc + 1 ≤ max_retries
        · have := ih (rc + 1) (idx + 1)
          simp [sendOneAux, h, h429, hrc]; omega
        · simp [sendOneAux, h, h429, hrc]
      · by_cases h5301 : strContains msg ("5301") = true
        · by_cases hrc : rc + 1 ≤ max_retries
          · have := ih (rc + 1) (idx + 1)
            simp [sendOneAux, h, h429, h5301, hrc]; omega
          · simp [sendOneAux, h, h429, h5301, hrc]
        · simp [sendOneAux, h, h429, h5301]

theorem sendOneAux_always429 {R : Type} (oracle : Nat → String → Except String R)
    (e msg : String) (delay : Rat) (max_retries : Nat)
    (hfail : ∀ i, oracle i e = Except.error msg)
    (h429 : strContains msg ("429") = true) :
    ∀ fuel retry_count idx, fuel + retry_count = max_retries + 1 → 1 ≤ fuel →
      sendOneAux oracle e delay max_retries fuel retry_count idx =
        ([⟨e, false, SendPayload.error msg⟩], idx + fuel,
          (List.range (max_retries - retry_count)).map
            (fun k => delay * 2 ^ (retry_count + 1 + k))) := by
  intro fuel
  induction fuel with
  | zero => intro rc idx hinv hf; omega
  | succ f ih =>
    intro rc idx hinv _
    by_cases hrc : rc + 1 ≤ max_retries
    · have hrest := ih (rc + 1) (idx + 1) (by omega) (by omega)
      simp only [sendOneAux, hfail idx, h429, if_pos hrc, hrest, if_true]
      refine Prod.ext rfl (Prod.ext ?_ ?_)
      · simp; omega
      · have hn : max_retries - rc = (max_retries - (rc + 1)) + 1 := by omega
        simp only [hn, List.range_succ_eq_map, List.map_cons, List.map_map]
        have h0 : rc + 1 + 0 = rc + 1 := by omega
        refine congrArg₂ List.cons (by rw [h0]) ?_
        refine List.map_congr_left (fun k hk => ?_)
        have : rc + 1 + 1 + k = rc + 1 + (k + 1) := by omega
        simp [Function.comp, this]
    · have hrc0 : rc = max_retries := by omega
      have hf0 : f = 0 := by omega
      simp only [sendOneAux, hfail idx, h429, if_neg hrc, if_true]
      subst hrc0 hf0
      simp

theorem sendOneAux_always5301 {R : Type} (oracle : Nat → String → Except String R)
    (e msg : String) (delay : Rat) (max_retries : Nat)
    (hfail : ∀ i, oracle i e = Except.error msg)
    (h429 : strContains msg ("429") = false)
    (h5301 : strContains msg ("5301") = true) :
    ∀ fuel retry_count idx, fuel + retry_count = max_retries + 1 → 1 ≤ fuel →
      sendOneAux oracle e delay max_retries fuel retry_count idx =
        ([⟨e, false, SendPayload.error msg⟩], idx + fuel,
          List.replicate (max_retries - retry_count) (delay * 2)) := by
  intro fuel
  induction fuel with
  | zero => intro rc idx hinv hf; omega
  | succ f ih =>
    intro rc idx hinv _
    by_cases hrc : rc + 1 ≤ max_retries
    · have hrest := ih (rc + 1) (idx + 1) (by omega) (by omega)
      simp only [sendOneAux, hfail idx, h429, h5301, if_pos hrc, hrest, if_true,
        Bool.false_eq_true, if_false]
      refine Prod.ext rfl (Prod.ext ?_ ?_)
      · simp; omega
      · have hn : max_retries - rc = (max_retries - (rc + 1)) + 1 := by omega
        simp [hn, List.replicate_succ]
    · have hrc0 : rc = max_retries := by omega
      have hf0 : f = 0 := by omega
      simp only [sendOneAux, hfail idx, h429, h5301, if_neg hrc, if_true,
        Bool.false_eq_true, if_false]
      subst hrc0 hf0
      simp

theorem spamAux_emoji {R : Type} (oracle : Nat → String → Except String R)
    (delay : Rat) (max_retries : Nat) :
    ∀ (emojis : List String) (idx : Nat),
      ((spamAux oracle delay max_retries emojis idx).1).map (fun o => o.emoji) = emojis := by
  intro emojis
  induction emojis with
  | nil => intro idx; simp [spamAux]
  | cons e rest ih =>
    intro idx
    simp only [spamAux, List.map_append]
    rw [sendOneAux_emoji oracle e delay max_retries (max_retries + 1) 0 idx
      (by omega) (by omega), ih]
    rfl

theorem spamAux_count_le {R : Type} (oracle : Nat → String → Except String R)
    (delay : Rat) (max_retries : Nat) :
    ∀ (emojis : List String) (idx : Nat),
      (spamAux oracle delay max_retries emojis idx).2.1 ≤
        idx + emojis.length * (max_retries + 1) := by
  intro emojis
  induction emojis with
  | nil => intro idx; simp [spamAux]
  | cons e rest ih =>
    intro idx
    simp only [spamAux]
    have h1 := sendOneAux_count_le oracle e delay max_retries (max_retries + 1) 0 idx
    have h2 := ih (sendOneAux oracle e delay max_retries (max_retries + 1) 0 idx).2.1
    simp only [List.length_cons, Nat.succ_mul]
    omega

/-- An error string carrying the rate-limit status, as produced by
`_handle_response` for an HTTP 429. -/
def msg429 : String := "Zoom API Error 429: You have exceeded the per-second rate limit"

/-- An error string carrying the transient domain error code 5301. -/
def msg5301 : String := "Zoom API Error 5301: Request to send the message failed"

/-- A non-retryable error string: contains neither `429` nor `5301`. -/
def msg404 : String := "Zoom API Error 404: Message does not exist"

/-- Oracle of a run in which every API request raises a 429 error. -/
def oracle429 : Nat → String → Except String Unit :=
  fun _ _ => Except.error msg429

/-- Oracle of a run in which every API request raises a 5301 error. -/
def oracle5301 : Nat → String → Except String Unit :=
  fun _ _ => Except.error msg5301

/-- Oracle of a run in which every API request raises a 404 error. -/
def oracle404 : Nat → String → Except String Unit :=
  fun _ _ => Except.error msg404

/-- C1: `spam_emojis` returns exactly one outcome record per input
symbol, in input order: the outcome list projected to its `emoji` field
is the input list, for every oracle, delay and retry budget. -/
theorem spam_emojis_preserves_order {R : Type} (oracle : Nat → String → Except String R)
    (emojis : List String) (delay : Rat) (max_retries : Nat) :
    ((spam_emojis oracle emojis delay max_retries).1).map (fun o => o.emoji) = emojis :=
  spamAux_emoji oracle delay max_retries emojis 0

/-- C2: the retry budget is per symbol: a symbol whose every request
fails with a 429-classified error consumes exactly `max_retries + 1`
requests (4 when `max_retries = 3`) and is then recorded as a failure,
and any batch of N symbols issues at most `N * (max_retries + 1)`
requests in total. -/
theorem spam_emojis_retry_budget {R : Type} (oracle : Nat → String → Except String R)
    (e msg : String) (delay : Rat) (max_retries : Nat)
    (hfail : ∀ i, oracle i e = Except.error msg)
    (h429 : strContains msg ("429") = true) :
    (spam_emojis oracle [e] delay max_retries).2.1 = max_retries + 1 ∧
    (spam_emojis oracle [e] delay max_retries).1 =
      [⟨e, false, SendPayload.error msg⟩] ∧
    ∀ (S : Type) (oracle2 : Nat → String → Except String S) (emojis : List String),
      (spam_emojis oracle2 emojis delay max_retries).2.1 ≤
        emojis.length * (max_retries + 1) := by
  have h := sendOneAux_always429 oracle e msg delay max_retries hfail h429
    (max_retries + 1) 0 0 (by omega) (by omega)
  refine ⟨?_, ?_, ?_⟩
  · simp [spam_emojis, spamAux, h]
  · simp [spam_emojis, spamAux, h]
  · intro S oracle2 emojis
    have hc := spamAux_count_le oracle2 delay max_retries emojis 0
    simpa [spam_emojis] using hc

theorem spam_emojis_retry_budget_witness :
    (spam_emojis oracle429 (["x"]) 1 3).2.1 = 4 ∧
    (spam_emojis oracle429 (["x"]) 1 3).1 =
      [⟨("x"), false, SendPayload.error msg429⟩] := by
  have h := spam_emojis_retry_budget oracle429 ("x") msg429 1 3
    (fun i => rfl) (by decide)
  exact ⟨h.1, h.2.1⟩

/-- C3: backoff growth by failure class: a symbol whose requests all
fail rate-limited sleeps `delay * 2 ^ k` before its k-th retry
(`2, 4, 8` seconds for `delay = 1`), while a symbol whose requests all
fail with the 5301 transient error sleeps the fixed `delay * 2` before
every retry. -/
theorem spam_emojis_backoff {R : Type} (oracle : Nat → String → Except String R)
    (e msg : String) (delay : Rat) (max_retries : Nat)
    (hfail : ∀ i, oracle i e = Except.error msg) :
    (strContains msg ("429") = true →
      (spam_emojis oracle [e] delay max_retries).2.2 =
        (List.range max_retries).map (fun k => delay * 2 ^ (k + 1))) ∧
    (strContains msg ("429") = false → strContains msg ("5301") = true →
      (spam_emojis oracle [e] delay max_retries).2.2 =
        List.replicate max_retries (delay * 2)) := by
  constructor
  · intro h429
    have h := sendOneAux_always429 oracle e msg delay max_retries hfail h429
      (max_retries + 1) 0 0 (by omega) (by omega)
    simp only [spam_emojis, spamAux, h]
    simp only [Nat.sub_zero, List.append_nil]
    refine List.map_congr_left (fun k hk => ?_)
    rw [(by omega : 0 + 1 + k = k + 1)]
  · intro h429 h5301
    have h := sendOneAux_always5301 oracle e msg delay max_retries hfail h429 h5301
      (max_retries + 1) 0 0 (by omega) (by omega)
    simp [spam_emojis, spamAux, h]

theorem spam_emojis_backoff_witness :
    (spam_emojis oracle429 (["x"]) 1 3).2.2 = [2, 4, 8] ∧
    (spam_emojis oracle5301 (["x"]) 1 3).2.2 = [2, 2, 2] := by
  constructor
  · have h := (spam_emojis_backoff oracle429 ("x") msg429 1 3 (fun i => rfl)).1
      (by decide)
    rw [h]
    norm_num [List.range_succ]
  · have h := (spam_emojis_backoff oracle5301 ("x") msg5301 1 3 (fun i => rfl)).2
      (by decide) (by decide)
    rw [h]
    norm_num [List.replicate_succ]

/-- C4: a non-retryable first error (neither `429` nor `5301` in its
text) makes the sender record a failure for that symbol after a single
request, still sleep the base `delay`, and process every subsequent
symbol of the batch. -/
theorem spam_emojis_nonretryable {R : Type} (oracle : Nat → String → Except String R)
    (e msg : String) (rest : List String) (delay : Rat) (max_retries : Nat)
    (hfail : oracle 0 e = Except.error msg)
    (h429 : strContains msg ("429") = false)
    (h5301 : strContains msg ("5301") = false) :
    spam_emojis oracle (e :: rest) delay max_retries =
      (⟨e, false, SendPayload.error msg⟩ ::
          (spamAux oracle delay max_retries rest 1).1,
        (spamAux oracle delay max_retries rest 1).2.1,
        delay :: (spamAux oracle delay max_retries rest 1).2.2) ∧
    ((spamAux oracle delay max_retries rest 1).1).map (fun o => o.emoji) = rest := by
  constructor
  · simp [spam_emojis, spamAux, sendOneAux, hfail, h429, h5301]
  · exact spamAux_emoji oracle delay max_retries rest 1

theorem spam_emojis_nonretryable_witness :
    (spam_emojis oracle404 (["x", "y"]) 1 3).1 =
      [⟨("x"), false, SendPayload.error msg404⟩,
        ⟨("y"), false, SendPayload.error msg404⟩] ∧
    (spam_emojis oracle404 (["x", "y"]) 1 3).2.1 = 2 := by
  have h := spam_emojis_nonretryable oracle404 ("x") msg404 (["y"]) 1 3
    rfl (by decide) (by decide)
  constructor
  · rw [h.1]
    decide
  · rw [h.1]
    decide

theorem hexDenoteAux_append (l1 : List Char) :
    ∀ (acc : Nat) (l2 : List Char),
      hexDenoteAux acc (l1 ++ l2) = hexDenoteAux (hexDenoteAux acc l1) l2 := by
  induction l1 with
  | nil => intro acc l2; rfl
  | cons c cs ih => intro acc l2; simp [hexDenoteAux, ih]

theorem hexVal_hexDigit : ∀ m, m < 16 → hexDigitVal (hexDigit m) = m := by decide

theorem hexDigit_ne_zero : ∀ m, m < 16 → 1 ≤ m → hexDigit m ≠ '0' := by decide

theorem hexDigit_mem_alphabet : ∀ m, m < 16 → hexDigit m ∈ hexAlphabet := by decide

theorem toHexAux_denote : ∀ fuel n, n < fuel → ∀ acc,
    hexDenoteAux acc (toHexAux fuel n) =
      acc * 16 ^ (toHexAux fuel n).length + n := by
  intro fuel
  induction fuel with
  | zero => intro n h; omega
  | succ f ih =>
    intro n hn acc
    by_cases h16 : n < 16
    · simp only [toHexAux, if_pos h16, hexDenoteAux, List.length_singleton]
      rw [hexVal_hexDigit n h16, pow_one]
      ring
    · have hdiv : n / 16 < f := by
        have h1 : n / 16 < n := Nat.div_lt_self (by omega) (by omega)
        omega
      simp only [toHexAux, if_neg h16]
      rw [hexDenoteAux_append, ih (n / 16) hdiv acc]
      simp only [hexDenoteAux]
      rw [hexVal_hexDigit (n % 16) (Nat.mod_lt _ (by omega))]
      rw [List.length_append, List.length_singleton, pow_succ]
      have hmod : 16 * (n / 16) + n % 16 = n := Nat.div_add_mod n 16
      calc 16 * (acc * 16 ^ (toHexAux f (n / 16)).length + n / 16) + n % 16
          = 16 * (acc * 16 ^ (toHexAux f (n / 16)).length) +
              (16 * (n / 16) + n % 16) := by ring
        _ = acc * (16 ^ (toHexAux f (n / 16)).length * 16) + n := by rw [hmod]; ring

theorem toHexAux_ne_nil : ∀ fuel n, n < fuel → toHexAux fuel n ≠ [] := by
  intro fuel
  induction fuel with
  | zero => intro n h; omega
  | succ f ih =>
    intro n hn
    by_cases h16 : n < 16
    · simp [toHexAux, h16]
    · simp [toHexAux, h16]

theorem toHexAux_head_ne_zero : ∀ fuel n, n < fuel → 1 ≤ n →
    (toHexAux fuel n).head? ≠ some ('0') := by
  intro fuel
  induction fuel with
  | zero => intro n h; omega
  | succ f ih =>
    intro n hn hpos
    by_cases h16 : n < 16
    · simp only [toHexAux, if_pos h16, List.head?_cons]
      intro hc
      exact hexDigit_ne_zero n h16 hpos (by injection hc)
    · have hdiv : n / 16 < f := by
        have h1 : n / 16 < n := Nat.div_lt_self (by omega) (by omega)
        omega
      have hdivpos : 1 ≤ n / 16 := Nat.one_le_div_iff (by omega) |>.mpr (by omega)
      have hne := toHexAux_ne_nil f (n / 16) hdiv
      simp only [toHexAux, if_neg h16]
      cases hcase : toHexAux f (n / 16) with
      | nil => exact absurd hcase hne
      | cons a l =>
        have := ih (n / 16) hdiv hdivpos
        rw [hcase] at this
        simpa using this

theorem toHexAux_mem_alphabet : ∀ fuel n, n < fuel →
    ∀ c ∈ toHexAux fuel n, c ∈ hexAlphabet := by
  intro fuel
  induction fuel with
  | zero => intro n h; omega
  | succ f ih =>
    intro n hn c hc
    by_cases h16 : n < 16
    · simp only [toHexAux, if_pos h16, List.mem_singleton] at hc
      exact hc ▸ hexDigit_mem_alphabet n h16
    · have hdiv : n / 16 < f := by
        have h1 : n / 16 < n := Nat.div_lt_self (by omega) (by omega)
        omega
      simp only [toHexAux, if_neg h16, List.mem_append, List.mem_singleton] at hc
      rcases hc with hc | hc
      · exact ih (n / 16) hdiv c hc
      · exact hc ▸ hexDigit_mem_alphabet (n % 16) (Nat.mod_lt _ (by omega))

/-- C5: for a single-codepoint symbol `encode` returns `U+` followed by
the uppercase hex of the codepoint, with no leading zero and digits from
the uppercase hex alphabet, and the hex faithfully denotes the
codepoint; for a multi-codepoint symbol the per-codepoint strings are
hyphen-joined in input order; the two-codepoint US flag encodes to
`U+1F1FA-U+1F1F8`. -/
theorem emoji_to_unicode_wire_format :
    (∀ c : Char, emoji_to_unicode (String.mk [c]) = ("U+") ++ pyHexUpper c.toNat) ∧
    (∀ s : String, 2 ≤ s.data.length →
      emoji_to_unicode s =
        pyJoin ("-") (s.data.map (fun c => ("U+") ++ pyHexUpper c.toNat))) ∧
    (∀ n : Nat, hexDenote (pyHexUpper n) = n) ∧
    (∀ n : Nat, 1 ≤ n → ((pyHexUpper n).data.head? ≠ some ('0'))) ∧
    (∀ n : Nat, ∀ c ∈ (pyHexUpper n).data, c ∈ hexAlphabet) ∧
    emoji_to_unicode flagUS = ("U+1F1FA-U+1F1F8") := by
  refine ⟨?_, ?_, ?_, ?_, ?_, by decide⟩
  · intro c
    simp [emoji_to_unicode]
  · intro s hlen
    rcases s with ⟨l⟩
    match l, hlen with
    | c1 :: c2 :: rest, _ =>
      simp only [emoji_to_unicode, List.map_map]
      rw [if_neg (by simp)]
      rfl
  · intro n
    have h := toHexAux_denote (n + 1) n (by omega) 0
    simpa [hexDenote, pyHexUpper] using h
  · intro n hpos
    have h := toHexAux_head_ne_zero (n + 1) n (by omega) hpos
    simpa [pyHexUpper] using h
  · intro n c hc
    exact toHexAux_mem_alphabet (n + 1) n (by omega) c (by simpa [pyHexUpper] using hc)

theorem emoji_to_unicode_wire_format_witness :
    emoji_to_unicode (String.mk [Char.ofNat 0x1F600]) =
      ("U+") ++ pyHexUpper (Char.ofNat 0x1F600).toNat ∧
    2 ≤ (flagUS).data.length ∧
    emoji_to_unicode flagUS =
      pyJoin ("-") ((flagUS).data.map (fun c => ("U+") ++ pyHexUpper c.toNat)) ∧
    1 ≤ 0x1F600 ∧ ((pyHexUpper 0x1F600).data.head? ≠ some ('0')) :=
  ⟨emoji_to_unicode_wire_format.1 (Char.ofNat 0x1F600),
    by decide,
    emoji_to_unicode_wire_format.2.1 flagUS (by decide),
    by decide,
    emoji_to_unicode_wire_format.2.2.2.1 0x1F600 (by decide)⟩

/-- C6 counterexample: `emoji_to_unicode` applied to the empty string
does not fail at all: the source has no empty-input check and no
`EncodingError`, and the hyphen-join of zero codepoint strings is the
empty string. -/
theorem emoji_to_unicode_empty_returns_empty :
    emoji_to_unicode ("") = ("") := by decide

/-- C6 amended: `encode` never fails: it is total and deterministic on
every text input, equal to the hyphen-join of the per-codepoint
encodings, which on the empty string yields the empty string rather
than an `EncodingError`. -/
theorem emoji_to_unicode_total_join :
    ∀ s : String, emoji_to_unicode s =
      pyJoin ("-") (s.data.map (fun c => ("U+") ++ pyHexUpper c.toNat)) := by
  intro s
  rcases s with ⟨l⟩
  cases l with
  | nil => rfl
  | cons c rest =>
    cases rest with
    | nil => simp [emoji_to_unicode, pyJoin]
    | cons c2 rest2 =>
      simp only [emoji_to_unicode, List.map_map]
      rw [if_neg (by simp)]
      rfl

/-- Embedding of the conditional `if value: data[key] = value` pattern of
lines 248-251: Python truthiness omits the key for `None` and for the
empty string. -/
def optEntry (key : String) : Option String → List (String × String)
  | some t => if t.isEmpty then [] else [(key, t)]
  | none => []

/-- The request body built by `add_emoji_reaction` (lines 239-251):
`action` and the encoded `emoji` always, then `to_contact` and
`to_channel` each exactly when truthy.  No validation is performed. -/
def build_reaction_data (action emoji_unicode : String)
    (to_contact to_channel : Option String) : List (String × String) :=
  [(("action"), action), (("emoji"), emoji_unicode)]
    ++ optEntry ("to_contact") to_contact ++ optEntry ("to_channel") to_channel

theorem optEntry_mem (key : String) (o : Option String) (s : String) :
    ((key, s) ∈ optEntry key o) ↔ (o = some s ∧ s.isEmpty = false) := by
  cases o with
  | none => simp [optEntry]
  | some t =>
    by_cases ht : t.isEmpty
    · simp only [optEntry, if_pos ht, List.not_mem_nil, false_iff, not_and,
        Option.some.injEq]
      rintro rfl
      simp [ht]
    · simp only [optEntry, if_neg ht, List.mem_singleton, Prod.mk.injEq, true_and,
        Option.some.injEq]
      constructor
      · rintro rfl
        exact ⟨rfl, by simpa using ht⟩
      · rintro ⟨rfl, _⟩
        rfl

theorem optEntry_key (key k : String) (o : Option String) (s : String) :
    (k, s) ∈ optEntry key o → k = key := by
  cases o with
  | none => simp [optEntry]
  | some t =>
    by_cases ht : t.isEmpty
    · simp [optEntry, ht]
    · simp only [optEntry, if_neg ht, List.mem_singleton, Prod.mk.injEq]
      exact fun h => h.1

/-- C7 counterexample: building the reaction-apply request with both the
contact and the channel set raises no error and silently includes both
identifiers in the body; with both unset it raises no error and includes
neither.  The source performs no validation at all. -/
theorem build_reaction_data_no_validation :
    build_reaction_data ("add") (emoji_to_unicode (String.mk [Char.ofNat 0x1F600]))
        (some ("alice")) (some ("chan1")) =
      [(("action"), ("add")), (("emoji"), ("U+1F600")),
        (("to_contact"), ("alice")), (("to_channel"), ("chan1"))] ∧
    build_reaction_data ("add") ("U+1F600") none none =
      [(("action"), ("add")), (("emoji"), ("U+1F600"))] := by
  constructor
  · decide
  · decide

/-- C7 amended: the request builder performs no validation: the body
contains a `to_contact` entry exactly when the contact is set and truthy
and a `to_channel` entry exactly when the channel is set and truthy,
independently; with both set both are included, with both unset neither
is, and no error is ever raised. -/
theorem build_reaction_data_membership (a u : String)
    (c ch : Option String) (s : String) :
    (((("to_contact"), s) ∈ build_reaction_data a u c ch) ↔
      (c = some s ∧ s.isEmpty = false)) ∧
    (((("to_channel"), s) ∈ build_reaction_data a u c ch) ↔
      (ch = some s ∧ s.isEmpty = false)) := by
  constructor
  · constructor
    · intro h
      simp only [build_reaction_data, List.mem_append, List.mem_cons,
        List.not_mem_nil, or_false] at h
      rcases h with ((h | h) | h) | h
      · injection h with h1 h2
        exact absurd h1 (by decide)
      · injection h with h1 h2
        exact absurd h1 (by decide)
      · exact (optEntry_mem _ _ _).mp h
      · exact absurd (optEntry_key _ _ _ _ h) (by decide)
    · intro h
      simp only [build_reaction_data, List.mem_append]
      exact Or.inl (Or.inr ((optEntry_mem _ _ _).mpr h))
  · constructor
    · intro h
      simp only [build_reaction_data, List.mem_append, List.mem_cons,
        List.not_mem_nil, or_false] at h
      rcases h with ((h | h) | h) | h
      · injection h with h1 h2
        exact absurd h1 (by decide)
      · injection h with h1 h2
        exact absurd h1 (by decide)
      · exact absurd (optEntry_key _ _ _ _ h) (by decide)
      · exact (optEntry_mem _ _ _).mp h
    · intro h
      simp only [build_reaction_data, List.mem_append]
      exact Or.inr ((optEntry_mem _ _ _).mpr h)

/-- JSON values appearing in the modelled response bodies. -/
inductive JVal where
  | jstr : String → JVal
  | jbool : Bool → JVal
  | jnum : Int → JVal
deriving DecidableEq

/-- Python `str()` of a JSON value, as interpolated into the error
f-string of `_handle_response`. -/
def jvalDisplay : JVal → String
  | JVal.jstr s => s
  | JVal.jbool b => if b then ("True") else ("False")
  | JVal.jnum n => toString n

/-- Python `dict.get(key, default)` over the modelled body. -/
def jget (d : List (String × JVal)) (k : String) (dflt : JVal) : JVal :=
  match d.lookup k with
  | some v => v
  | none => dflt

/-- Python dict assignment `d[k] = v`: update in place when the key
exists, append otherwise. -/
def dictSet (d : List (String × JVal)) (k : String) (v : JVal) :
    List (String × JVal) :=
  if (d.lookup k).isSome then
    d.map (fun p => if p.1 = k then (k, v) else p)
  else d ++ [(k, v)]

/-- An HTTP response as `_handle_response` observes it: the status code
and the JSON body when `response.json()` parses (`none` models a
`ValueError` from parsing). -/
structure HttpResponse where
  status_code : Nat
  body : Option (List (String × JVal))
deriving DecidableEq

/-- `requests.Response.ok`: true below 400. -/
def respOk (r : HttpResponse) : Bool := r.status_code < 400

/-- `ZoomEmojiSender._handle_response` (lines 56-81): a 204 returns
immediately; any other non-ok response raises an `HTTPError` whose text
is built from the body's `code` and `message` fields when the body
parses, or `raise_for_status` style text otherwise; ok responses pass. -/
def handle_response (r : HttpResponse) : Except String Unit :=
  if r.status_code = 204 then Except.ok ()
  else if respOk r then Except.ok ()
  else
    match r.body with
    | some d =>
      Except.error (("Zoom API Error ") ++
        jvalDisplay (jget d ("code") (JVal.jnum (Int.ofNat r.status_code))) ++
        (": ") ++
        jvalDisplay (jget d ("message") (JVal.jstr ("Unknown error"))))
    | none => Except.error (toString r.status_code ++ (" Error"))

/-- `ZoomEmojiSender.add_emoji_reaction` (lines 216-270) as a function
of the response the PATCH request produced.  The `user_id` and
`message_id` arguments only appear in the request URL and are omitted.
A 204 yields the synthesised success dict without reading the body;
otherwise the parsed body is returned with the original emoji written
into its `emoji` key. -/
def add_emoji_reaction (emoji action : String)
    (to_contact to_channel : Option String) (resp : HttpResponse) :
    Except String (List (String × JVal)) :=
  let emoji_unicode := emoji_to_unicode emoji
  let _data := build_reaction_data action emoji_unicode to_contact to_channel
  match handle_response resp with
  | Except.error e => Except.error e
  | Except.ok _ =>
    if resp.status_code = 204 then
      Except.ok [(("success"), JVal.jbool true), (("emoji"), JVal.jstr emoji),
        (("emoji_unicode"), JVal.jstr emoji_unicode)]
    else
      match resp.body with
      | some d => Except.ok (dictSet d ("emoji") (JVal.jstr emoji))
      | none => Except.error ("ValueError: no JSON body")

/-- C8: a 204 no-content response is a valid success: for every body
(parsed, unparseable, or absent) `add_emoji_reaction` returns a success
dict carrying the original symbol, raising no error and never reading
the response body. -/
theorem add_emoji_reaction_204_success :
    ∀ (emoji action : String) (to_contact to_channel : Option String)
      (body : Option (List (String × JVal))),
      add_emoji_reaction emoji action to_contact to_channel ⟨204, body⟩ =
        Except.ok [(("success"), JVal.jbool true), (("emoji"), JVal.jstr emoji),
          (("emoji_unicode"), JVal.jstr (emoji_to_unicode emoji))] := by
  intro e a c ch body
  rfl

/-- One page of a paginated listing endpoint. -/
structure Page (I : Type) where
  items : List I
  next_page_token : Option String

/-- Python truthiness of the stored `next_page_token`: absent and empty
tokens are falsy (both `if next_page_token:` and
`if not next_page_token:` in the source). -/
def tokenTruthy : Option String → Bool
  | none => false
  | some s => !s.isEmpty

/-- The shared pagination loop of `list_chat_channels` (lines 115-152)
and `list_recent_messages` (lines 154-214): request a page (sending the
stored token only when truthy), append its items, stop as soon as the
returned token is falsy.  `fetch i tok` is the environment's response to
the `i`-th request when the params carry token `tok`; `fuel` bounds the
loop, and `none` models a run that needs more iterations than `fuel`.
Returns the aggregated items and the number of requests issued. -/
def listAllAux {I : Type} (fetch : Nat → Option String → Page I) :
    Nat → Nat → Option String → List I → Option (List I × Nat)
  | 0, _, _, _ => none
  | fuel + 1, i, tok, acc =>
    let sent := if tokenTruthy tok then tok else none
    let p := fetch i sent
    let acc2 := acc ++ p.items
    if tokenTruthy p.next_page_token then
      listAllAux fetch fuel (i + 1) p.next_page_token acc2
    else some (acc2, i + 1)

/-- `ZoomEmojiSender.list_chat_channels`: the pagination loop over the
channels endpoint (the fixed query params only select the endpoint and
page size and are part of `fetch`). -/
def list_chat_channels {I : Type} (fetch : Nat → Option String → Page I)
    (fuel : Nat) : Option (List I × Nat) :=
  listAllAux fetch fuel 0 none []

/-- `ZoomEmojiSender.list_recent_messages`: the same pagination loop
over the messages endpoint; the contact/channel/date filters are fixed
query params absorbed into `fetch`. -/
def list_recent_messages {I : Type} (fetch : Nat → Option String → Page I)
    (fuel : Nat) : Option (List I × Nat) :=
  listAllAux fetch fuel 0 none []

/-- C9: for both paginated listings, when page 1 carries a (truthy)
`next_page_token` and page 2 does not, the aggregate is exactly the
concatenation of the two pages' items in page order — each item exactly
once — and the loop stops after the second request. -/
theorem pagination_two_pages {I : Type} (fetch : Nat → Option String → Page I)
    (fuel : Nat)
    (h1 : tokenTruthy (fetch 0 none).next_page_token = true)
    (h2 : tokenTruthy
      (fetch 1 (fetch 0 none).next_page_token).next_page_token = false)
    (hf : 2 ≤ fuel) :
    list_chat_channels fetch fuel =
      some ((fetch 0 none).items ++
        (fetch 1 (fetch 0 none).next_page_token).items, 2) ∧
    list_recent_messages fetch fuel =
      some ((fetch 0 none).items ++
        (fetch 1 (fetch 0 none).next_page_token).items, 2) := by
  obtain ⟨f, rfl⟩ : ∃ f, fuel = f + 2 := ⟨fuel - 2, by omega⟩
  constructor
  · simp [list_chat_channels, listAllAux, h1, h2]
  · simp [list_recent_messages, listAllAux, h1, h2]

/-- A concrete two-page environment for the pagination scenario. -/
def twoPages : Nat → Option String → Page Nat :=
  fun i _ => if i = 0 then ⟨[1, 2], some ("tokenA")⟩ else ⟨[3], none⟩

theorem pagination_two_pages_witness :
    list_chat_channels twoPages 5 = some ([1, 2, 3], 2) ∧
    list_recent_messages twoPages 5 = some ([1, 2, 3], 2) := by
  have h := pagination_two_pages twoPages 5 (by decide) (by decide) (by decide)
  constructor
  · rw [h.1]
    rfl
  · rw [h.2]
    rfl

/-- An error string containing both `429` and `5301` as substrings. -/
def msgBoth : String := "Zoom API Error 5301: retry after 429 ms"

/-- Oracle of a run in which every request raises `msgBoth`. -/
def oracleBoth : Nat → String → Except String Unit :=
  fun _ _ => Except.error msgBoth

/-- A 404-class error whose text merely contains the digits `429`. -/
def msg404with429 : String := "Zoom API Error 404: see incident 429"

/-- Oracle of a run in which every request raises `msg404with429`. -/
def oracle404with429 : Nat → String → Except String Unit :=
  fun _ _ => Except.error msg404with429

/-- C10 counterexample: an error string that contains `5301` is not
necessarily classified as the transient server error: when `429` also
occurs in the text the `if` chain classifies it as rate-limited first,
and the sender's backoff for it is the exponential `[2, 4]`, not the
fixed `[2, 2]` of the transient class. -/
theorem classify_both_digits_cx :
    strContains msgBoth ("5301") = true ∧
    classify msgBoth ≠ ErrClass.transientServer ∧
    classify msgBoth = ErrClass.rateLimited ∧
    (spam_emojis oracleBoth (["x"]) 1 2).2.2 = [2, 4] := by
  refine ⟨by decide, by decide, by decide, ?_⟩
  have h := sendOneAux_always429 oracleBoth ("x") msgBoth 1 2 (fun i => rfl)
    (by decide) 3 0 0 (by omega) (by omega)
  simp [spam_emojis, spamAux, h]
  norm_num [List.range_succ]

/-- C10 amended: the sender classifies an HTTP error only by its string
form: rate-limited exactly when `429` occurs in the text, transient
server error exactly when `5301` occurs and `429` does not (the `429`
check comes first); the status code is never inspected, so an always
failing symbol whose error text merely contains `429` is retried — at
least two requests are issued when the budget allows a retry. -/
theorem error_classification_by_substring (msg : String) :
    (classify msg = ErrClass.rateLimited ↔ strContains msg ("429") = true) ∧
    (classify msg = ErrClass.transientServer ↔
      (strContains msg ("5301") = true ∧ strContains msg ("429") = false)) ∧
    (∀ (R : Type) (oracle : Nat → String → Except String R) (e : String)
      (delay : Rat) (max_retries : Nat),
      (∀ i, oracle i e = Except.error msg) → strContains msg ("429") = true →
      1 ≤ max_retries →
      2 ≤ (spam_emojis oracle [e] delay max_retries).2.1) := by
  refine ⟨?_, ?_, ?_⟩
  · cases h4 : strContains msg ("429") <;> cases h5 : strContains msg ("5301") <;>
      simp [classify, h4, h5]
  · cases h4 : strContains msg ("429") <;> cases h5 : strContains msg ("5301") <;>
      simp [classify, h4, h5]
  · intro R oracle e delay max_retries hfail h429 hmr
    have h := sendOneAux_always429 oracle e msg delay max_retries hfail h429
      (max_retries + 1) 0 0 (by omega) (by omega)
    have hc : (spam_emojis oracle [e] delay max_retries).2.1 = max_retries + 1 := by
      simp [spam_emojis, spamAux, h]
    omega

theorem error_classification_by_substring_witness :
    classify msg404with429 = ErrClass.rateLimited ∧
    2 ≤ (spam_emojis oracle404with429 (["x"]) 1 3).2.1 :=
  ⟨(error_classification_by_substring msg404with429).1.mpr (by decide),
    (error_classification_by_substring msg404with429).2.2 Unit oracle404with429
      ("x") 1 3 (fun i => rfl) (by decide) (by decide)⟩
